import Mathlib

/-
Formal model of the cart totals and menu-selection validation logic of the
grindel-backhus storefront.

Source of the embedding:
  - src/unnamed/part_000: two versions of the Cart component.
    Lines 76 to 103 (v1) and 323 to 350 (v2) compute cartItems, subTotal and
    totalPrice; the two versions are textually identical there.
    Lines 352 to 410 (v2) are the increment, decrement and remove handlers.
    Lines 414 to 464 (v2) are handleCheckout: per-group category lookups
    followed by a short-circuiting count check.
  - src/src/redux/redux-provider.tsx: getTotalPrice in the Navbar component.

Modelling conventions:
  - JavaScript strings are List Char; numbers are rationals; the JS value NaN
    is the value none of an Option of rationals (the functions below produce
    NaN only through parseFloat).
  - jsParseFloat models the finite-decimal grammar of the JS parseFloat
    builtin: optional leading whitespace, optional sign, digits with an
    optional fractional part, optional exponent; the longest valid prefix is
    taken and none is returned when no prefix parses. The Infinity literal is
    not modelled (none is returned for it); no price or totals text handled by
    the claims contains it.
  - Quantities and product ids are integers in the data (the spec declares
    quantity a positive integer and productId an integer); the JS comparison
    of product ids via toString on numbers is integer equality.
-/

namespace GB

def digitVal (c : Char) : ℕ := c.toNat - 48

def digitsVal (ds : List Char) : ℕ := ds.foldl (fun n c => 10 * n + digitVal c) 0

def jsIsNeg : List Char → Bool
  | '-' :: _ => true
  | _ => false

def jsAfterSign : List Char → List Char
  | '-' :: r => r
  | '+' :: r => r
  | s => s

def jsReadExpDigits (s : List Char) : ℤ :=
  match s with
  | '-' :: r =>
    if (r.takeWhile Char.isDigit) = [] then 0 else -(digitsVal (r.takeWhile Char.isDigit) : ℤ)
  | '+' :: r =>
    if (r.takeWhile Char.isDigit) = [] then 0 else (digitsVal (r.takeWhile Char.isDigit) : ℤ)
  | r =>
    if (r.takeWhile Char.isDigit) = [] then 0 else (digitsVal (r.takeWhile Char.isDigit) : ℤ)

def jsReadExp : List Char → ℤ
  | 'e' :: rest => jsReadExpDigits rest
  | 'E' :: rest => jsReadExpDigits rest
  | _ => 0

/-
Discrete part of the parseFloat grammar. The result encodes the parsed number
as (signed scaled mantissa m, fraction length f, exponent e), whose value is
m / 10 ^ f * 10 ^ e; none encodes NaN.
-/
def jsParseFloatRep (s : List Char) : Option (ℤ × ℕ × ℤ) :=
  let t := s.dropWhile Char.isWhitespace
  let u := jsAfterSign t
  let intDs := u.takeWhile Char.isDigit
  let v := u.drop intDs.length
  let fracDs := match v with
    | '.' :: r => r.takeWhile Char.isDigit
    | _ => []
  let w := match v with
    | '.' :: r => r.drop (r.takeWhile Char.isDigit).length
    | _ => v
  if intDs = [] ∧ fracDs = [] then none
  else
    let m : ℕ := digitsVal (intDs ++ fracDs)
    some (if jsIsNeg t then -(m : ℤ) else (m : ℤ), fracDs.length, jsReadExp w)

def jsApplyExp (q : ℚ) (e : ℤ) : ℚ :=
  if 0 ≤ e then q * (10 : ℚ) ^ e.toNat else q / (10 : ℚ) ^ (-e).toNat

def repVal (r : ℤ × ℕ × ℤ) : ℚ :=
  jsApplyExp ((r.1 : ℚ) / (10 : ℚ) ^ r.2.1) r.2.2

def jsParseFloat (s : List Char) : Option ℚ :=
  (jsParseFloatRep s).map repVal

/-
Data model. CartItem mirrors the CartItem interface of the source: price is an
optional string (price?: string), quantity a number. TotalsEntry mirrors the
entries of cartData.totals.
-/

structure CartItem where
  product_id : ℤ
  cart_id : List Char
  price : Option (List Char)
  quantity : ℕ
deriving DecidableEq, Repr

structure TotalsEntry where
  title : List Char
  text : List Char
deriving DecidableEq, Repr

/-
Cart v1 lines 76 to 83 and v2 lines 323 to 330: each product price is
parseFloat(product.price or "0"); the or-default fires when price is
undefined or the empty string, the only falsy string.
-/
def cartItemPriceVal (it : CartItem) : Option ℚ :=
  jsParseFloat (match it.price with
    | some p => if p = [] then ['0'] else p
    | none => ['0'])

def numOrZero : Option ℚ → ℚ
  | some q => q
  | none => 0

/-
Cart v1 lines 85 to 90 and v2 lines 332 to 337: the reduce computing subTotal.
The expression (item.price or 0) maps the NaN produced by parseFloat, and a
literal zero price, to 0.
-/
def cartSubTotal (items : List CartItem) : ℚ :=
  items.foldl (fun s it => s + numOrZero (cartItemPriceVal it) * (it.quantity : ℚ)) 0

/-
Cart v1 lines 91 to 96 and v2 lines 338 to 343: the totals entry whose title
is exactly "Total" is located with find; when present its text is stripped of
every character other than digits and dots and parsed, otherwise the total is
the computed subtotal.
-/
def findTotalEntry (totals : List TotalsEntry) : Option TotalsEntry :=
  totals.find? (fun t => t.title == "Total".toList)

def keepDigitsAndDots (s : List Char) : List Char :=
  s.filter (fun c => c.isDigit || c == '.')

def totalPriceOf (items : List CartItem) (totals : List TotalsEntry) : Option ℚ :=
  match findTotalEntry totals with
  | some t => jsParseFloat (keepDigitsAndDots t.text)
  | none => some (cartSubTotal items)

/-
Navbar getTotalPrice, redux-provider.tsx: price is
parseFloat(item.price?.replace("€", "").replace(",", ".")); the replace calls
remove the first Euro sign and replace the first comma with a dot. When price
is undefined the optional chain yields undefined and parseFloat gives NaN; a
NaN price contributes 0 to the sum.
-/
def removeFirst (a : Char) : List Char → List Char
  | [] => []
  | c :: r => if c = a then r else c :: removeFirst a r

def replaceFirst (a b : Char) : List Char → List Char
  | [] => []
  | c :: r => if c = a then b :: r else c :: replaceFirst a b r

def navPriceVal (it : CartItem) : Option ℚ :=
  match it.price with
  | none => none
  | some p => jsParseFloat (replaceFirst ',' '.' (removeFirst '€' p))

def navContribution (it : CartItem) : ℚ :=
  match navPriceVal it with
  | none => 0
  | some q => q * (it.quantity : ℚ)

def getTotalPrice (items : List CartItem) : ℚ :=
  items.foldl (fun t it => t + navContribution it) 0

/-
Definition following the words of the spec, for comparison with the source
definitions above (spec section 4.1): parsePrice strips any character that is
not a digit and not a separator, normalizes a comma decimal separator to a
dot, and yields 0 when the result is not a valid number.
-/
def specParsePrice (s : List Char) : ℚ :=
  numOrZero (jsParseFloat
    (replaceFirst ',' '.' (s.filter (fun c => c.isDigit || c == ',' || c == '.'))))

def specSubTotal (items : List CartItem) : ℚ :=
  (items.map (fun it =>
    specParsePrice (match it.price with | some p => p | none => []) * (it.quantity : ℚ))).sum

/-
Menu selection validation, from handleCheckout v2 (lines 414 to 464).
-/

/-
A menu content group as it appears in cartData.cart.menu.contents: a name, an
optional required count (content.count, read as count or 0) and the category
ids used for the membership lookups.
-/
structure BundleContent where
  name : List Char
  count : Option ℕ
  ids : List ℤ
deriving DecidableEq, Repr

/-
Lines 440 to 446: the reduce computing currentCount. An item contributes its
quantity exactly when its product id occurs among the fetched category
products; ids are compared with toString, which on integers is integer
equality.
-/
def groupCurrentCount (memberIds : List ℤ) (items : List CartItem) : ℕ :=
  items.foldl (fun s it => if memberIds.contains it.product_id then s + it.quantity else s) 0

inductive ValidationResult where
  | satisfied : ValidationResult
  | unsatisfied : List Char → ℕ → ℕ → ValidationResult
deriving DecidableEq, Repr

/-
A bundle group with its membership already resolved, the pure validator input
demanded by spec section 4.2: requiredCount is content.count or 0.
-/
structure ResolvedGroup where
  name : List Char
  requiredCount : ℕ
  memberProductIds : List ℤ
deriving DecidableEq, Repr

/-
The validation loop of handleCheckout v2 (lines 439 to 457), over groups with
pre-resolved membership: groups are scanned in order; the first group whose
current count is below its required count is reported and the loop stops;
when no group fails the checkout proceeds. The loop of handleCheckout v1
(lines 142 to 156) has the same shape with currentCount read from a field.
-/
def validate : List ResolvedGroup → List CartItem → ValidationResult
  | [], _ => ValidationResult.satisfied
  | g :: rest, items =>
    if groupCurrentCount g.memberProductIds items < g.requiredCount then
      ValidationResult.unsatisfied g.name g.requiredCount
        (groupCurrentCount g.memberProductIds items)
    else validate rest items

inductive CheckoutOutcome where
  | proceed : CheckoutOutcome
  | blocked : List Char → ℕ → ℕ → CheckoutOutcome
  | lookupFailed : CheckoutOutcome
deriving DecidableEq, Repr

/-
Lines 421 to 437: the membership lookup for one group. Each category id is
fetched; a response without a products field contributes nothing; the fetched
product lists are concatenated in category order. A rejected fetch rejects
the whole Promise.all, which the surrounding try/catch turns into an abort of
the entire checkout attempt. The resolver argument models the external
category lookup interface: error is a failed fetch, ok none a response with
no products field, ok (some ps) the fetched product ids.
-/
def resolveCategoryIds (resolve : ℤ → Except Unit (Option (List ℤ))) :
    List ℤ → Except Unit (List ℤ)
  | [] => Except.ok []
  | i :: rest =>
    match resolve i with
    | Except.error e => Except.error e
    | Except.ok r =>
      match resolveCategoryIds resolve rest with
      | Except.error e => Except.error e
      | Except.ok rs => Except.ok (r.getD [] ++ rs)

/-
handleCheckout v2 (lines 414 to 464). The outcome proceed is the navigation
to the checkout route, blocked is the per-group validation toast followed by
return, and lookupFailed is the catch branch: the generic retry toast with no
navigation.
-/
def handleCheckoutV2 (resolve : ℤ → Except Unit (Option (List ℤ))) :
    List BundleContent → List CartItem → CheckoutOutcome
  | [], _ => CheckoutOutcome.proceed
  | c :: rest, items =>
    match resolveCategoryIds resolve c.ids with
    | Except.error _ => CheckoutOutcome.lookupFailed
    | Except.ok catProducts =>
      if groupCurrentCount catProducts items < c.count.getD 0 then
        CheckoutOutcome.blocked c.name (c.count.getD 0) (groupCurrentCount catProducts items)
      else handleCheckoutV2 resolve rest items

/-
Quantity mutation handlers, v2 lines 352 to 410 (v1 lines 105 to 139 are the
same policy). Each handler issues exactly one call to the mutate interface;
the action below records that call.
-/
inductive CartAction where
  | editQty : List Char → ℕ → CartAction
  | removeItem : List Char → ℕ → CartAction
deriving DecidableEq, Repr

def handleIncrement (it : CartItem) : CartAction :=
  CartAction.editQty it.cart_id (it.quantity + 1)

def handleRemove (it : CartItem) : CartAction :=
  CartAction.removeItem it.cart_id 0

def handleDecrement (it : CartItem) : CartAction :=
  if 1 < it.quantity then CartAction.editQty it.cart_id (it.quantity - 1)
  else handleRemove it


/-
Concrete inputs used by the counterexamples and witnesses below.
-/

def cexItem : CartItem := ⟨1, [], some ['1', '2', ',', '5', '0', ' ', '€'], 1⟩

def badTotals : List TotalsEntry := [⟨['T', 'o', 't', 'a', 'l'], ['n', '/', 'a']⟩]

def goodText : List Char := ['2', '0', '.', '5', ' ', '€']

def goodTotals : List TotalsEntry := [⟨['T', 'o', 't', 'a', 'l'], goodText⟩]

def gSalat : ResolvedGroup := ⟨['S', 'a', 'l', 'a', 't'], 2, [1, 2]⟩

def gDessert : ResolvedGroup := ⟨['D', 'e', 's', 's', 'e', 'r', 't'], 1, [3]⟩

def wItems : List CartItem := [⟨1, [], none, 1⟩]

def gZero : ResolvedGroup := ⟨['A'], 0, []⟩

def gEmptyMembers : ResolvedGroup := ⟨['E'], 1, []⟩

def wItems2 : List CartItem := [⟨7, [], none, 3⟩]

def wItem3 : CartItem := ⟨1, ['x'], none, 2⟩

def wResolve : ℤ → Except Unit (Option (List ℤ)) :=
  fun i => if i = 1 then Except.ok (some [5]) else Except.error ()

def cA : BundleContent := ⟨['A'], some 0, [1]⟩

def cB : BundleContent := ⟨['B'], some 1, [2]⟩

def wTotalsOther : List TotalsEntry := [⟨['S', 'u', 'b'], ['9']⟩]

/-
Helper lemmas shared by the claim theorems below.
-/

theorem foldl_add_map_sum {α : Type} (f : α → ℚ) (l : List α) (a : ℚ) :
    l.foldl (fun s x => s + f x) a = a + (l.map f).sum := by
  induction l generalizing a with
  | nil => simp
  | cons x xs ih => simp [List.foldl_cons, ih]; ring

theorem foldl_count_filter_sum {α : Type} (P : α → Bool) (q : α → ℕ) (l : List α) (a : ℕ) :
    l.foldl (fun s x => if P x then s + q x else s) a = a + ((l.filter P).map q).sum := by
  induction l generalizing a with
  | nil => simp
  | cons x xs ih =>
    by_cases hx : P x
    · simp [List.foldl_cons, hx, ih, List.filter_cons]
      omega
    · simp [List.foldl_cons, hx, ih, List.filter_cons]

theorem validate_satisfied_iff (groups : List ResolvedGroup) (items : List CartItem) :
    validate groups items = ValidationResult.satisfied ↔
      ∀ g ∈ groups, g.requiredCount ≤ groupCurrentCount g.memberProductIds items := by
  induction groups with
  | nil => simp [validate]
  | cons g rest ih =>
    by_cases h : groupCurrentCount g.memberProductIds items < g.requiredCount
    · refine iff_of_false (by simp [validate, h]) ?_
      intro hall
      exact absurd (hall g (List.mem_cons_self g rest)) (not_le.mpr h)
    · rw [show validate (g :: rest) items = validate rest items from by simp [validate, h]]
      rw [ih, List.forall_mem_cons]
      simp [not_lt.mp h]

theorem validate_append_unsat (items : List CartItem) (pre : List ResolvedGroup)
    (g : ResolvedGroup) (post : List ResolvedGroup)
    (hpre : ∀ g2 ∈ pre, g2.requiredCount ≤ groupCurrentCount g2.memberProductIds items)
    (hg : groupCurrentCount g.memberProductIds items < g.requiredCount) :
    validate (pre ++ g :: post) items =
      ValidationResult.unsatisfied g.name g.requiredCount
        (groupCurrentCount g.memberProductIds items) := by
  induction pre with
  | nil => simp [validate, hg]
  | cons p ps ih =>
    have hp : ¬ (groupCurrentCount p.memberProductIds items < p.requiredCount) :=
      not_lt.mpr (hpre p (List.mem_cons_self p ps))
    rw [List.cons_append]
    rw [show validate (p :: (ps ++ g :: post)) items = validate (ps ++ g :: post) items from by
      simp [validate, hp]]
    exact ih (fun g2 hg2 => hpre g2 (List.mem_cons_of_mem p hg2))

theorem validate_unsat_pos (groups : List ResolvedGroup) (items : List CartItem)
    (n : List Char) (r cur : ℕ)
    (h : validate groups items = ValidationResult.unsatisfied n r cur) : 0 < r := by
  induction groups with
  | nil => simp [validate] at h
  | cons g rest ih =>
    by_cases hlt : groupCurrentCount g.memberProductIds items < g.requiredCount
    · rw [show validate (g :: rest) items = ValidationResult.unsatisfied g.name g.requiredCount
          (groupCurrentCount g.memberProductIds items) from by simp [validate, hlt]] at h
      obtain ⟨h1, h2, h3⟩ := ValidationResult.unsatisfied.inj h
      omega
    · rw [show validate (g :: rest) items = validate rest items from by simp [validate, hlt]] at h
      exact ih h

theorem handleCheckout_error_after_sat (resolve : ℤ → Except Unit (Option (List ℤ)))
    (items : List CartItem) (pre : List BundleContent) (c : BundleContent)
    (post : List BundleContent)
    (hpre : ∀ g ∈ pre, ∃ ps, resolveCategoryIds resolve g.ids = Except.ok ps ∧
      g.count.getD 0 ≤ groupCurrentCount ps items)
    (hc : resolveCategoryIds resolve c.ids = Except.error ()) :
    handleCheckoutV2 resolve (pre ++ c :: post) items = CheckoutOutcome.lookupFailed := by
  induction pre with
  | nil => simp [handleCheckoutV2, hc]
  | cons p ps ih =>
    obtain ⟨mem, hmem, hsat⟩ := hpre p (List.mem_cons_self p ps)
    rw [List.cons_append]
    rw [show handleCheckoutV2 resolve (p :: (ps ++ c :: post)) items
        = handleCheckoutV2 resolve (ps ++ c :: post) items from by
      simp [handleCheckoutV2, hmem, not_lt.mpr hsat]]
    exact ih (fun g hg => hpre g (List.mem_cons_of_mem p hg))

theorem handleCheckout_refines_validate (resolve : ℤ → Except Unit (Option (List ℤ)))
    (mem : BundleContent → List ℤ) (contents : List BundleContent) (items : List CartItem)
    (h : ∀ c ∈ contents, resolveCategoryIds resolve c.ids = Except.ok (mem c)) :
    handleCheckoutV2 resolve contents items =
      match validate (contents.map (fun c => ⟨c.name, c.count.getD 0, mem c⟩)) items with
      | ValidationResult.satisfied => CheckoutOutcome.proceed
      | ValidationResult.unsatisfied n r cur => CheckoutOutcome.blocked n r cur := by
  induction contents with
  | nil => simp [handleCheckoutV2, validate]
  | cons c rest ih =>
    have hc := h c (List.mem_cons_self c rest)
    by_cases hlt : groupCurrentCount (mem c) items < c.count.getD 0
    · simp [handleCheckoutV2, hc, hlt, validate]
    · rw [show handleCheckoutV2 resolve (c :: rest) items
          = handleCheckoutV2 resolve rest items from by simp [handleCheckoutV2, hc, hlt]]
      rw [List.map_cons]
      rw [show validate (⟨c.name, c.count.getD 0, mem c⟩ :: rest.map (fun c =>
          (⟨c.name, c.count.getD 0, mem c⟩ : ResolvedGroup))) items
          = validate (rest.map (fun c => (⟨c.name, c.count.getD 0, mem c⟩ : ResolvedGroup))) items
          from by simp [validate, hlt]]
      exact ih (fun g hg => h g (List.mem_cons_of_mem c hg))


/-- C1 counterexample: for the line item with price text 12,50 € and quantity
one, the Cart subtotal is 12 while the parsePrice of the spec, which
normalizes the comma decimal separator to a dot, gives 12.5; the computed
subtotal therefore differs from the sum the claim describes. -/
theorem subtotal_comma_counterexample :
    cartSubTotal [cexItem] = 12 ∧ specSubTotal [cexItem] = 25 / 2 ∧
      cartSubTotal [cexItem] ≠ specSubTotal [cexItem] := by
  have h1 : jsParseFloatRep ['1', '2', ',', '5', '0', ' ', '€'] = some (12, 0, 0) := by decide
  have h2 : jsParseFloatRep (replaceFirst ',' '.' ['1', '2', ',', '5', '0'])
      = some (1250, 2, 0) := by decide
  refine ⟨?_, ?_, ?_⟩
  · simp [cartSubTotal, cexItem, cartItemPriceVal, jsParseFloat, h1, repVal, jsApplyExp,
      numOrZero]
  · simp [specSubTotal, cexItem, specParsePrice, jsParseFloat, h2, repVal, jsApplyExp,
      numOrZero]
    norm_num
  · simp [cartSubTotal, specSubTotal, cexItem, cartItemPriceVal, specParsePrice, jsParseFloat,
      h1, h2, repVal, jsApplyExp, numOrZero]
    norm_num

/-- C1 amended: the Cart subtotal equals the sum over items of
parseFloat(price) times quantity where parseFloat takes the longest leading
decimal prefix of the raw price text, so a comma ends the number and is not
normalized, a trailing currency symbol is ignored, and NaN contributes 0 and
never throws; the Navbar getTotalPrice equals the sum over items of quantity
times the parse of the price with the first Euro sign removed and the first
comma replaced by a dot, NaN contributing 0. -/
theorem subtotal_parse_amended (items : List CartItem) :
    cartSubTotal items
        = (items.map (fun it => numOrZero (cartItemPriceVal it) * (it.quantity : ℚ))).sum
      ∧ getTotalPrice items = (items.map navContribution).sum := by
  constructor
  · exact (foldl_add_map_sum _ items 0).trans (zero_add _)
  · exact (foldl_add_map_sum _ items 0).trans (zero_add _)

/-- C2 counterexample: with an empty item list and a totals list whose Total
entry has the unparseable text n/a, the computed total is NaN (none), not the
subtotal 0 the claim requires. -/
theorem total_unparseable_counterexample :
    totalPriceOf [] badTotals = none ∧
      totalPriceOf [] badTotals ≠ some (cartSubTotal []) := by
  have h : totalPriceOf [] badTotals = none := by
    simp [totalPriceOf, findTotalEntry, badTotals, keepDigitsAndDots, jsParseFloat]
    decide
  refine ⟨h, ?_⟩
  rw [h]
  simp

/-- C2 amended: the total is the parse of the first totals entry titled Total
when that entry is present and its stripped text parses; when no such entry
is present the total equals the computed subtotal; when the entry is present
but its stripped text does not parse the total is NaN, with no fallback to
the subtotal. -/
theorem total_fallback_amended (items : List CartItem) (totals : List TotalsEntry) :
    (∀ t q, findTotalEntry totals = some t →
        jsParseFloat (keepDigitsAndDots t.text) = some q →
        totalPriceOf items totals = some q)
      ∧ (findTotalEntry totals = none →
        totalPriceOf items totals = some (cartSubTotal items))
      ∧ (∀ t, findTotalEntry totals = some t →
        jsParseFloat (keepDigitsAndDots t.text) = none →
        totalPriceOf items totals = none) := by
  refine ⟨?_, ?_, ?_⟩
  · intro t q hfind hparse
    simp [totalPriceOf, hfind, hparse]
  · intro hfind
    simp [totalPriceOf, hfind]
  · intro t hfind hparse
    simp [totalPriceOf, hfind, hparse]

/-- Witness for C2 amended: a Total entry with text 20.5 € yields the parsed
total 20.5. -/
theorem total_fallback_amended_witness :
    totalPriceOf [] goodTotals = some (41 / 2) := by
  have hfind : findTotalEntry goodTotals = some ⟨['T', 'o', 't', 'a', 'l'], goodText⟩ := by
    decide
  have hparse : jsParseFloat (keepDigitsAndDots goodText) = some (41 / 2) := by
    have h : jsParseFloatRep ['2', '0', '.', '5'] = some (205, 1, 0) := by decide
    simp [keepDigitsAndDots, goodText, jsParseFloat, h, repVal, jsApplyExp]
    norm_num
  exact (total_fallback_amended [] goodTotals).1 _ _ hfind hparse

/-- C3: the validator scans the groups in their defined order; it returns
satisfied exactly when every group meets its required count, and when the
groups split as pre ++ g :: post with every group of pre satisfied and g
short of its required count, the result is unsatisfied for g, independent of
the groups after g, which are never evaluated. -/
theorem validate_order_shortcircuit (groups : List ResolvedGroup) (items : List CartItem) :
    (validate groups items = ValidationResult.satisfied ↔
      ∀ g ∈ groups, g.requiredCount ≤ groupCurrentCount g.memberProductIds items)
    ∧ (∀ pre g post, groups = pre ++ g :: post →
      (∀ g2 ∈ pre, g2.requiredCount ≤ groupCurrentCount g2.memberProductIds items) →
      groupCurrentCount g.memberProductIds items < g.requiredCount →
      validate groups items = ValidationResult.unsatisfied g.name g.requiredCount
        (groupCurrentCount g.memberProductIds items)) := by
  constructor
  · exact validate_satisfied_iff groups items
  · intro pre g post heq hpre hg
    rw [heq]
    exact validate_append_unsat items pre g post hpre hg

/-- Witness for C3: the spec example with groups Salat (required 2, members 1
and 2) and Dessert (required 1, member 3), and one item of product 1 with
quantity 1, yields unsatisfied Salat with required 2 and current 1. -/
theorem validate_order_shortcircuit_witness :
    validate [gSalat, gDessert] wItems
      = ValidationResult.unsatisfied ['S', 'a', 'l', 'a', 't'] 2 1 := by
  have hpre : ∀ g2 ∈ ([] : List ResolvedGroup),
      g2.requiredCount ≤ groupCurrentCount g2.memberProductIds wItems := by simp
  have hg : groupCurrentCount gSalat.memberProductIds wItems < gSalat.requiredCount := by
    decide
  have h := (validate_order_shortcircuit [gSalat, gDessert] wItems).2 [] gSalat [gDessert]
    rfl hpre hg
  have hc : groupCurrentCount gSalat.memberProductIds wItems = 1 := by decide
  rw [hc] at h
  exact h
/-- C4: the current count of a group equals the sum of the quantities of
exactly those items whose product id is a member of the group membership
list; an empty membership list gives current count 0; a group with empty
membership and positive required count is reported unsatisfied with current
count 0 when it is the first failing group, and its presence prevents the
validator from returning satisfied. -/
theorem group_count_spec (memberIds : List ℤ) (items : List CartItem)
    (groups : List ResolvedGroup) :
    (groupCurrentCount memberIds items
      = ((items.filter (fun it => memberIds.contains it.product_id)).map
          (fun it => it.quantity)).sum)
    ∧ (groupCurrentCount [] items = 0)
    ∧ (∀ pre g post, groups = pre ++ g :: post →
      (∀ g2 ∈ pre, g2.requiredCount ≤ groupCurrentCount g2.memberProductIds items) →
      g.memberProductIds = [] → 0 < g.requiredCount →
      validate groups items = ValidationResult.unsatisfied g.name g.requiredCount 0)
    ∧ (∀ g ∈ groups, g.memberProductIds = [] → 0 < g.requiredCount →
      validate groups items ≠ ValidationResult.satisfied) := by
  have hempty : groupCurrentCount [] items = 0 := by
    simp [groupCurrentCount]
  refine ⟨?_, hempty, ?_, ?_⟩
  · exact (foldl_count_filter_sum _ _ items 0).trans (zero_add _)
  · intro pre g post heq hpre hmem hreq
    rw [heq]
    have hg : groupCurrentCount g.memberProductIds items < g.requiredCount := by
      rw [hmem, hempty]
      exact hreq
    have h := validate_append_unsat items pre g post hpre hg
    rw [hmem, hempty] at h
    exact h
  · intro g hg hmem hreq hsat
    have h := (validate_satisfied_iff groups items).mp hsat g hg
    rw [hmem, hempty] at h
    omega

/-- Witness for C4: with a first group of required count 0 and a second group
with empty membership and required count 1, a cart with one item of quantity
3 is reported unsatisfied for the second group with current count 0. -/
theorem group_count_spec_witness :
    validate [gZero, gEmptyMembers] wItems2
      = ValidationResult.unsatisfied ['E'] 1 0 := by
  have hpre : ∀ g2 ∈ [gZero],
      g2.requiredCount ≤ groupCurrentCount g2.memberProductIds wItems2 := by decide
  have hmem : gEmptyMembers.memberProductIds = [] := by decide
  have hreq : 0 < gEmptyMembers.requiredCount := by decide
  have h := (group_count_spec [] wItems2 [gZero, gEmptyMembers]).2.2.1 [gZero] gEmptyMembers []
    rfl hpre hmem hreq
  exact h

/-- C5: incrementing sends exactly quantity plus one to the edit-quantity
interface; decrementing an item of quantity above one sends quantity minus
one; decrementing an item of quantity one performs the removal instead; and
neither handler ever sends quantity 0 to the edit-quantity interface. -/
theorem quantity_mutation_policy (it : CartItem) :
    handleIncrement it = CartAction.editQty it.cart_id (it.quantity + 1)
    ∧ (1 < it.quantity →
      handleDecrement it = CartAction.editQty it.cart_id (it.quantity - 1))
    ∧ (it.quantity = 1 → handleDecrement it = handleRemove it)
    ∧ (∀ cid q, handleIncrement it = CartAction.editQty cid q → 0 < q)
    ∧ (∀ cid q, handleDecrement it = CartAction.editQty cid q → 0 < q) := by
  refine ⟨rfl, ?_, ?_, ?_, ?_⟩
  · intro h
    simp [handleDecrement, h]
  · intro h
    simp [handleDecrement, h]
  · intro cid q h
    obtain ⟨h1, h2⟩ := CartAction.editQty.inj h
    omega
  · intro cid q h
    by_cases hq : 1 < it.quantity
    · rw [show handleDecrement it = CartAction.editQty it.cart_id (it.quantity - 1) from by
        simp [handleDecrement, hq]] at h
      obtain ⟨h1, h2⟩ := CartAction.editQty.inj h
      omega
    · rw [show handleDecrement it = handleRemove it from by simp [handleDecrement, hq]] at h
      exact absurd h (by simp [handleRemove])

/-- Witness for C5: decrementing the concrete item of quantity 2 sends an
edit with quantity 1. -/
theorem quantity_mutation_policy_witness :
    handleDecrement wItem3 = CartAction.editQty ['x'] 1 := by
  have hq : 1 < wItem3.quantity := by decide
  exact (quantity_mutation_policy wItem3).2.1 hq

/-- C6: when the membership lookup of a group fails while every earlier group
resolved and was satisfied, the whole checkout attempt resolves to the lookup
failure outcome, which is the generic retry message: navigation to checkout
does not occur and the failing group is reported neither satisfied nor
unsatisfied. -/
theorem lookup_failure_aborts_checkout (resolve : ℤ → Except Unit (Option (List ℤ)))
    (items : List CartItem) (pre : List BundleContent) (c : BundleContent)
    (post : List BundleContent)
    (hpre : ∀ g ∈ pre, ∃ ps, resolveCategoryIds resolve g.ids = Except.ok ps ∧
      g.count.getD 0 ≤ groupCurrentCount ps items)
    (hc : resolveCategoryIds resolve c.ids = Except.error ()) :
    handleCheckoutV2 resolve (pre ++ c :: post) items = CheckoutOutcome.lookupFailed
    ∧ handleCheckoutV2 resolve (pre ++ c :: post) items ≠ CheckoutOutcome.proceed
    ∧ ∀ n r cur,
      handleCheckoutV2 resolve (pre ++ c :: post) items ≠ CheckoutOutcome.blocked n r cur := by
  have h := handleCheckout_error_after_sat resolve items pre c post hpre hc
  refine ⟨h, ?_, ?_⟩
  · rw [h]
    simp
  · intro n r cur
    rw [h]
    simp

/-- Witness for C6: with a resolver that succeeds on category 1 and fails on
category 2, a first group over category 1 with required count 0 and a second
group over category 2, the checkout resolves to the lookup failure outcome. -/
theorem lookup_failure_aborts_checkout_witness :
    handleCheckoutV2 wResolve [cA, cB] [] = CheckoutOutcome.lookupFailed := by
  have hok : resolveCategoryIds wResolve cA.ids = Except.ok [5] := rfl
  have hsat : cA.count.getD 0 ≤ groupCurrentCount [5] [] := by decide
  have hpre : ∀ g ∈ [cA], ∃ ps, resolveCategoryIds wResolve g.ids = Except.ok ps ∧
      g.count.getD 0 ≤ groupCurrentCount ps [] := by
    intro g hg
    simp only [List.mem_singleton] at hg
    subst hg
    exact ⟨[5], hok, hsat⟩
  have hc : resolveCategoryIds wResolve cB.ids = Except.error () := rfl
  exact (lookup_failure_aborts_checkout wResolve [] [cA] cB [] hpre hc).1

/-- C7: a group whose required count is 0 is always satisfied: every
unsatisfied result carries a positive required count, and a leading group
with required count 0 never affects the validation result. -/
theorem required_zero_group_passes (groups : List ResolvedGroup) (items : List CartItem) :
    (∀ n r cur, validate groups items = ValidationResult.unsatisfied n r cur → 0 < r)
    ∧ ∀ g rest, g.requiredCount = 0 →
      validate (g :: rest) items = validate rest items := by
  constructor
  · intro n r cur h
    exact validate_unsat_pos groups items n r cur h
  · intro g rest h0
    simp [validate, h0]

/-- Witness for C7: a group with required count 0 and empty membership passes
through the validator. -/
theorem required_zero_group_passes_witness :
    validate [gZero] wItems2 = validate [] wItems2 := by
  have h0 : gZero.requiredCount = 0 := by decide
  exact (required_zero_group_passes [gZero] wItems2).2 gZero [] h0

/-- C8: the totals computation and the validator are deterministic pure
functions of their arguments: two runs on identical inputs yield identical
outputs. Freedom from side effects and from input mutation holds by
construction of this embedding, in which the source computations are total
functions of their inputs. -/
theorem pure_functions_deterministic (items1 items2 : List CartItem)
    (totals1 totals2 : List TotalsEntry) (groups1 groups2 : List ResolvedGroup)
    (h1 : items1 = items2) (h2 : totals1 = totals2) (h3 : groups1 = groups2) :
    cartSubTotal items1 = cartSubTotal items2
    ∧ totalPriceOf items1 totals1 = totalPriceOf items2 totals2
    ∧ validate groups1 items1 = validate groups2 items2 := by
  subst h1
  subst h2
  subst h3
  exact ⟨rfl, rfl, rfl⟩

/-- Witness for C8: the determinism statement at empty inputs. -/
theorem pure_functions_deterministic_witness :
    cartSubTotal [] = cartSubTotal []
    ∧ totalPriceOf [] [] = totalPriceOf [] []
    ∧ validate [] [] = validate [] [] :=
  pure_functions_deterministic [] [] [] [] [] [] rfl rfl rfl

/-- C10: the authoritative total is taken only from the totals entry titled
exactly Total: when the find locates such an entry the total is the parse of
that entry text stripped of every character other than digits and dots, and
when no entry is titled Total the entries are ignored and the total equals
the locally computed subtotal. -/
theorem total_entry_selection (items : List CartItem) (totals : List TotalsEntry) :
    (∀ t, findTotalEntry totals = some t →
      totalPriceOf items totals = jsParseFloat (keepDigitsAndDots t.text))
    ∧ ((∀ t ∈ totals, t.title ≠ "Total".toList) →
      totalPriceOf items totals = some (cartSubTotal items)) := by
  constructor
  · intro t h
    simp [totalPriceOf, h]
  · intro hall
    have hnone : findTotalEntry totals = none := by
      rw [findTotalEntry, List.find?_eq_none]
      intro t ht
      simpa using hall t ht
    simp [totalPriceOf, hnone]

/-- Witness for C10: a totals list with a single entry titled Sub leaves the
total equal to the computed subtotal. -/
theorem total_entry_selection_witness :
    totalPriceOf [] wTotalsOther = some (cartSubTotal []) := by
  have hall : ∀ t ∈ wTotalsOther, t.title ≠ "Total".toList := by decide
  exact (total_entry_selection [] wTotalsOther).2 hall

end GB
